import Mathlib

/-!
Verification of the coefficient-stability (Oster delta-star) pipeline from
`Notebooks/4 Best Practices - Coefficient Stability.ipynb`.

The notebook states the governing closed-form delta-star formula (markdown cell
6cd0a331), generates a synthetic dataset (`dgp`), ranks covariates, and runs a
specification-curve loop that calls a cross-fitted double-ML estimator
(`st.ate.dml.dml_plm`) and a delta calculator (`st.diagnostics.coefstab.delta_ml`).
The recorded traceback in the notebook shows the run aborting with an
IndexError at `predict_proba(...)[:, 1]` when a training partition contains a
single treatment class.

All arithmetic is embedded over `ℚ`.
-/

namespace CoefStab

/-- The nine scalar inputs of the delta-star closed form, as listed in the
notebook's markdown cell: β̇ (`betaDot`), β̃ (`betaTilde`), β̂ (`betaHat`),
Ṙ (`RDot`), R̃ (`RTilde`), R_max (`RMax`), σ̂²_Y (`sigma2Y`), σ̂²_X (`sigma2X`),
τ̂_X (`tauX`). -/
structure DeltaInputs where
  betaDot : ℚ
  betaTilde : ℚ
  betaHat : ℚ
  RDot : ℚ
  RTilde : ℚ
  RMax : ℚ
  sigma2Y : ℚ
  sigma2X : ℚ
  tauX : ℚ
  deriving Repr, DecidableEq

/-- The auxiliary cross term of the notebook's formula:
`A = (β̃-β̂)² (τ̂_X (β̇-β̃) σ̂²_X) + (β̃-β̂)³ (τ̂_X σ̂²_X - τ̂²_X)`. -/
def auxA (p : DeltaInputs) : ℚ :=
  (p.betaTilde - p.betaHat) ^ 2 * (p.tauX * (p.betaDot - p.betaTilde) * p.sigma2X)
    + (p.betaTilde - p.betaHat) ^ 3 * (p.tauX * p.sigma2X - p.tauX ^ 2)

/-- Numerator of the delta-star closed form from the notebook markdown:
`(β̃-β̂)(R̃-Ṙ) σ̂²_Y τ̂_X + (β̃-β̂) σ̂²_X τ̂_X (β̇-β̃)² + 2A`. -/
def deltaNumer (p : DeltaInputs) : ℚ :=
  (p.betaTilde - p.betaHat) * (p.RTilde - p.RDot) * p.sigma2Y * p.tauX
    + (p.betaTilde - p.betaHat) * p.sigma2X * p.tauX * (p.betaDot - p.betaTilde) ^ 2
    + 2 * auxA p

/-- Denominator of the delta-star closed form from the notebook markdown:
`(R_max-R̃) σ̂²_Y (β̇-β̃) σ̂²_X + (β̃-β̂)(R_max-R̃) σ̂²_Y (σ̂²_X-τ̂_X) + A`. -/
def deltaDenom (p : DeltaInputs) : ℚ :=
  (p.RMax - p.RTilde) * p.sigma2Y * (p.betaDot - p.betaTilde) * p.sigma2X
    + (p.betaTilde - p.betaHat) * (p.RMax - p.RTilde) * p.sigma2Y
        * (p.sigma2X - p.tauX)
    + auxA p

/-- The delta-star statistic from the governing formula (markdown cell 6cd0a331). -/
def deltaStar (p : DeltaInputs) : ℚ :=
  deltaNumer p / deltaDenom p

/-- A global sign flip of the treatment variable `W ↦ -W` negates all three
regression coefficients (β̇, β̃, β̂) while leaving the R² values, the variances
σ̂²_Y, σ̂²_X, and the residual variance τ̂_X unchanged. -/
def flipTreatment (p : DeltaInputs) : DeltaInputs :=
  { p with betaDot := -p.betaDot, betaTilde := -p.betaTilde, betaHat := -p.betaHat }

/-- Modelled from the spec: the body of `st.diagnostics.coefstab.delta_ml`
lives in `stnomics.py`, which is not among this repository's files (only the
notebook's call and a recorded traceback are); its validation and
numeric-failure handling are modelled from §4.3/§7 of the spec.  A run either
aborts with a configuration error naming the offending field, or yields a
per-step outcome: a defined δ* value, or an explicit undefined result carrying
the intermediate moments. -/
inductive DeltaOutcome where
  | defined : ℚ → DeltaOutcome
  | undefinedMoments : DeltaInputs → DeltaOutcome
  deriving Repr, DecidableEq

/-- Modelled from the spec: the Delta Statistic Calculator (§4.3, missing from
`src/`).  It first validates `R_max ≥ R̃` (fail fast, configuration error naming
the field), then, if the denominator is within the tolerance of zero, returns
the explicit undefined outcome with the intermediate moments attached;
otherwise the δ* value. -/
def deltaCalc (tol : ℚ) (p : DeltaInputs) : Except String DeltaOutcome :=
  if p.RMax < p.RTilde then
    Except.error "R_max"
  else if |deltaDenom p| < tol then
    Except.ok (DeltaOutcome.undefinedMoments p)
  else
    Except.ok (DeltaOutcome.defined (deltaStar p))

/-- Modelled from the spec: the calculator performs its three nested
specification fits only after validation passes (§4.3 "fail fast before any
fitting").  This variant also returns the list of model-fitting events the call
performed, so that "no fitting happened" is expressible. -/
def deltaCalcTrace (tol : ℚ) (p : DeltaInputs) :
    List String × Except String DeltaOutcome :=
  if p.RMax < p.RTilde then
    ([], Except.error "R_max")
  else
    (["short-fit", "intermediate-fit"], deltaCalc tol p)

/-- The control-set accumulation of the notebook's specification-curve loop:
starting from an empty `iterative_ml_list`, each iteration appends the next
name of the ranked `outcome_feature_list` and records the accumulated list as
that step's `feature_name`. -/
def iterativeControlSets (ranked : List String) : List (List String) :=
  (ranked.foldl
    (fun acc f =>
      let cur := acc.2 ++ [f]
      (acc.1 ++ [cur], cur))
    (([] : List (List String)), ([] : List String))).1

/-- sklearn `predict_proba` column structure: one column per distinct class
observed in the training labels (`classes_`).  The learned per-class
probability values themselves are abstracted by `prob`. -/
def predictProba (prob : ℚ → List ℚ → ℚ) (trainLabels : List ℚ)
    (test : List (List ℚ)) : List (List ℚ) :=
  test.map (fun row => trainLabels.dedup.map (fun c => prob c row))

/-- NumPy column indexing `m[:, j]`: raises IndexError when `j` is out of
bounds for some row. -/
def colIndex (m : List (List ℚ)) (j : Nat) : Except String (List ℚ) :=
  if m.all (fun row => decide (j < row.length)) then
    Except.ok (m.map (fun row => row.getD j 0))
  else
    Except.error "IndexError"

/-- The treatment-model cross-fitting step of `stnomics.delta_ml` exactly as
recorded in the notebook traceback (stnomics.py lines 496-499): fit the
treatment model on the training partition's labels `trainW`, then take column 1
of `predict_proba` on the held-out rows to extend `W_hat`. -/
def delta_ml_foldWhat (prob : ℚ → List ℚ → ℚ) (trainW : List ℚ)
    (test : List (List ℚ)) : Except String (List ℚ) :=
  colIndex (predictProba prob trainW test) 1

/-- The notebook's specification-curve loop over the ranked feature list: each
step runs the δ computation on the accumulated control set and appends the
record; a raised exception in any step propagates and aborts the whole loop, so
no per-step records are returned.  `stepDelta` abstracts the step body (the
`delta_ml` call). -/
def specCurveLoop (stepDelta : List String → Except String ℚ)
    (ranked : List String) : Except String (List ℚ) :=
  (iterativeControlSets ranked).foldlM
    (fun acc controls => (stepDelta controls).map (fun d => acc ++ [d])) []

/-- Arithmetic mean of a list of rationals. -/
def mean (l : List ℚ) : ℚ := l.sum / l.length

/-- Residual sum of squares between actual values and predictions,
row-aligned. -/
def ssRes (y yhat : List ℚ) : ℚ :=
  ((y.zip yhat).map (fun p => (p.1 - p.2) ^ 2)).sum

/-- Total sum of squares of the actual values around their mean. -/
def ssTot (y : List ℚ) : ℚ :=
  (y.map (fun v => (v - mean y) ^ 2)).sum

/-- `sklearn.metrics.r2_score` as called in the notebook's `te_r2_output`:
`1 - SS_res/SS_tot`, with sklearn's constant-target edge handling (when
`SS_tot = 0`, the score is 1 for a perfect fit and 0 otherwise). -/
def r2_score (y yhat : List ℚ) : ℚ :=
  if ssTot y = 0 then (if ssRes y yhat = 0 then 1 else 0)
  else 1 - ssRes y yhat / ssTot y

/-- The notebook's `te_r2_output`: calls the treatment-effect estimator (its
ATE and SE results abstracted as `te`), computes the out-of-fold cross-fitted
outcome predictions (`yhat`), and returns
`(te['ATE TE'], te['ATE SE'], r2_score(Y, yhat))`. -/
def te_r2_output (te : ℚ × ℚ) (y yhat : List ℚ) : ℚ × ℚ × ℚ :=
  (te.1, te.2, r2_score y yhat)

/-- A dataset row for the double-ML estimator: outcome `y`, treatment `w`,
covariates `x`. -/
structure Row where
  y : ℚ
  w : ℚ
  x : List ℚ
  deriving Repr, DecidableEq

/-- Cross-fitted out-of-fold prediction: each row is predicted by the model
fit (with the given seed) on the rows of all other folds.  `fit` abstracts a
deterministic model-fitting procedure as a function of (seed, training rows). -/
def oofPredict (fit : Nat → List Row → (Row → ℚ)) (seed : Nat)
    (folds : List Nat) (data : List Row) : List ℚ :=
  (data.zip folds).map (fun rf =>
    fit seed
      ((data.zip folds).filterMap
        (fun rg => if rg.2 ≠ rf.2 then some rg.1 else none))
      rf.1)

/-- Clipping to the trimming bounds `[lo, hi]`. -/
def clip (lo hi v : ℚ) : ℚ := max lo (min hi v)

/-- Result of one double-ML run: ATE coefficient, squared standard error
(kept squared so the computation stays inside ℚ), and the outcome-model R². -/
structure DMLResult where
  ate : ℚ
  se2 : ℚ
  r2 : ℚ
  deriving Repr, DecidableEq

/-- Modelled from the spec: the body of `st.ate.dml.dml_plm` lives in
`stnomics.py`, which is not among this repository's files; the partial-linear
double-ML algorithm is modelled from §4.2 of the spec.  Residual outcome
`Y - ŷ` is regressed on residual treatment `W - p̂` (single coefficient, no
intercept); the squared standard error is the Neyman-orthogonal
moment-variance estimator; R² is `r2_score` of Y against the out-of-fold
predicted Y.  Model fits are deterministic functions of (seed, training
rows). -/
def dml_plm (fitY fitT : Nat → List Row → (Row → ℚ)) (seedY seedT : Nat)
    (folds : List Nat) (data : List Row) (lo hi : ℚ) : DMLResult :=
  let yhat := oofPredict fitY seedY folds data
  let what := (oofPredict fitT seedT folds data).map (clip lo hi)
  let ry := ((data.map Row.y).zip yhat).map (fun p => p.1 - p.2)
  let rt := ((data.map Row.w).zip what).map (fun p => p.1 - p.2)
  let ate := ((ry.zip rt).map (fun p => p.1 * p.2)).sum /
    (rt.map (fun v => v ^ 2)).sum
  let psi := (rt.zip ry).map (fun p => p.1 * (p.2 - ate * p.1))
  let n : ℚ := data.length
  let se2 := ((psi.map (fun v => (v - mean psi) ^ 2)).sum / n) / n /
    (mean (rt.map (fun v => v ^ 2))) ^ 2
  ⟨ate, se2, r2_score (data.map Row.y) yhat⟩

/-- Ascending sort, as `np.percentile` applies internally. -/
def sortAsc (l : List ℚ) : List ℚ := l.insertionSort (· ≤ ·)

/-- `np.percentile(l, q)` with the default linear-interpolation method: on the
ascending sort `s` of the `n` values, the virtual index is
`h = q/100 * (n-1)`; with `k = ⌊h⌋` and fraction `g = h - k`, the result is
`s[k] + g * (s[k+1] - s[k])`. -/
def npPercentile (l : List ℚ) (q : ℚ) : ℚ :=
  let s := sortAsc l
  let h : ℚ := q / 100 * ((l.length : ℚ) - 1)
  let k : ℕ := ⌊h⌋₊
  let g : ℚ := h - k
  s.getD k 0 + g * (s.getD (k + 1) 0 - s.getD k 0)

/-- The treatment assignment of the notebook's `dgp`:
`W = (latent_prop > np.percentile(latent_prop, 0.50)).astype(float)`.
The random draws that build `latent_prop` are abstracted into the given
list. -/
def dgpW (latent : List ℚ) : List ℚ :=
  latent.map (fun v => if npPercentile latent ((1 : ℚ) / 2) < v then 1 else 0)

/-- The number of untreated rows (`W = 0`) produced by `dgp`. -/
def zeroCount (l : List ℚ) : ℕ := l.countP (fun w => decide (w = 0))

end CoefStab

namespace CoefStab

/-- C2: with β̃ = β̂ every term of the numerator carries the factor (β̃ - β̂),
so the numerator vanishes and δ* = 0 whenever the denominator is nonzero. -/
theorem deltaStar_eq_zero_of_betaTilde_eq_betaHat (p : DeltaInputs)
    (hβ : p.betaTilde = p.betaHat) (hd : deltaDenom p ≠ 0) :
    deltaStar p = 0 := by
  have hnum : deltaNumer p = 0 := by
    simp [deltaNumer, auxA, hβ]
  simp [deltaStar, hnum]

/-- Witness for C2: a concrete input with β̃ = β̂ = 2 and nonzero denominator
on which δ* evaluates to 0. -/
theorem deltaStar_eq_zero_witness :
    deltaDenom ⟨1, 2, 2, (1:ℚ)/10, (3:ℚ)/10, (9:ℚ)/10, 1, 1, (1:ℚ)/2⟩ ≠ 0 ∧
      deltaStar ⟨1, 2, 2, (1:ℚ)/10, (3:ℚ)/10, (9:ℚ)/10, 1, 1, (1:ℚ)/2⟩ = 0 :=
  ⟨by norm_num [deltaDenom, auxA],
   deltaStar_eq_zero_of_betaTilde_eq_betaHat
     ⟨1, 2, 2, (1:ℚ)/10, (3:ℚ)/10, (9:ℚ)/10, 1, 1, (1:ℚ)/2⟩ rfl
     (by norm_num [deltaDenom, auxA])⟩

/-- C7: a global sign flip of the treatment negates β̇, β̃, β̂ simultaneously
(so β̇-β̃ and β̃-β̂ both flip); the numerator and denominator each flip sign,
and δ* is unchanged. -/
theorem deltaStar_flipTreatment (p : DeltaInputs) :
    deltaStar (flipTreatment p) = deltaStar p := by
  have hn : deltaNumer (flipTreatment p) = -deltaNumer p := by
    simp only [deltaNumer, auxA, flipTreatment]
    ring
  have hd : deltaDenom (flipTreatment p) = -deltaDenom p := by
    simp only [deltaDenom, auxA, flipTreatment]
    ring
  rw [deltaStar, hn, hd, neg_div_neg_eq]
  rfl

/-- C3: whenever validation passes and the denominator's absolute value is
below the tolerance, the calculator returns the explicit undefined outcome
carrying the intermediate moments — never a number. -/
theorem deltaCalc_undefined_of_small_denom (tol : ℚ) (p : DeltaInputs)
    (hv : p.RTilde ≤ p.RMax) (hd : |deltaDenom p| < tol) :
    deltaCalc tol p = Except.ok (DeltaOutcome.undefinedMoments p) := by
  simp [deltaCalc, not_lt.mpr hv, hd]

/-- Witness for C3: a concrete input whose denominator is exactly zero
(R_max = R̃ and β̃ = β̂), on which the calculator returns the undefined
outcome with the moments attached. -/
theorem deltaCalc_undefined_witness :
    ((⟨1, 2, 2, (1:ℚ)/10, (3:ℚ)/10, (3:ℚ)/10, 1, 1, (1:ℚ)/2⟩ :
        DeltaInputs).RTilde ≤
      (⟨1, 2, 2, (1:ℚ)/10, (3:ℚ)/10, (3:ℚ)/10, 1, 1, (1:ℚ)/2⟩ :
        DeltaInputs).RMax) ∧
    |deltaDenom ⟨1, 2, 2, (1:ℚ)/10, (3:ℚ)/10, (3:ℚ)/10, 1, 1, (1:ℚ)/2⟩| <
        (1:ℚ)/1000 ∧
    deltaCalc ((1:ℚ)/1000) ⟨1, 2, 2, (1:ℚ)/10, (3:ℚ)/10, (3:ℚ)/10, 1, 1, (1:ℚ)/2⟩ =
      Except.ok (DeltaOutcome.undefinedMoments
        ⟨1, 2, 2, (1:ℚ)/10, (3:ℚ)/10, (3:ℚ)/10, 1, 1, (1:ℚ)/2⟩) :=
  ⟨by norm_num, by norm_num [deltaDenom, auxA],
   deltaCalc_undefined_of_small_denom ((1:ℚ)/1000)
     ⟨1, 2, 2, (1:ℚ)/10, (3:ℚ)/10, (3:ℚ)/10, 1, 1, (1:ℚ)/2⟩
     (by norm_num) (by norm_num [deltaDenom, auxA])⟩

/-- C4: a call with R_max < R̃ fails immediately with a configuration error
naming the offending field, and performs no model fitting (the trace of fit
events is empty, so the run's state is unchanged). -/
theorem deltaCalc_rejects_RMax_below_RTilde (tol : ℚ) (p : DeltaInputs)
    (hv : p.RMax < p.RTilde) :
    deltaCalcTrace tol p = ([], Except.error "R_max") := by
  simp [deltaCalcTrace, hv]

/-- Witness for C4: a concrete call with R_max = 1/10 < 3/10 = R̃ is rejected
with the configuration error and an empty fit trace. -/
theorem deltaCalc_rejects_witness :
    ((⟨1, 2, 2, (1:ℚ)/10, (3:ℚ)/10, (1:ℚ)/10, 1, 1, (1:ℚ)/2⟩ :
        DeltaInputs).RMax <
      (⟨1, 2, 2, (1:ℚ)/10, (3:ℚ)/10, (1:ℚ)/10, 1, 1, (1:ℚ)/2⟩ :
        DeltaInputs).RTilde) ∧
    deltaCalcTrace ((1:ℚ)/1000)
        ⟨1, 2, 2, (1:ℚ)/10, (3:ℚ)/10, (1:ℚ)/10, 1, 1, (1:ℚ)/2⟩ =
      ([], Except.error "R_max") :=
  ⟨by norm_num,
   deltaCalc_rejects_RMax_below_RTilde ((1:ℚ)/1000)
     ⟨1, 2, 2, (1:ℚ)/10, (3:ℚ)/10, (1:ℚ)/10, 1, 1, (1:ℚ)/2⟩ (by norm_num)⟩

/-- Unfolding the specification-curve foldl from an arbitrary accumulator. -/
lemma iterativeControlSets_foldl (ranked : List String)
    (sets : List (List String)) (cur : List String) :
    ranked.foldl
      (fun acc f =>
        let c := acc.2 ++ [f]
        (acc.1 ++ [c], c)) (sets, cur) =
      (sets ++ (List.range ranked.length).map (fun i => cur ++ ranked.take (i + 1)),
        cur ++ ranked) := by
  induction ranked generalizing sets cur with
  | nil => simp
  | cons f fs ih =>
    simp only [List.foldl_cons]
    rw [ih]
    simp [List.range_succ_eq_map, List.map_map, Function.comp,
      List.append_assoc, List.take_succ_cons]

/-- The notebook loop's control sets are exactly the prefixes of the ranked
list, in order of growing length. -/
lemma iterativeControlSets_eq (ranked : List String) :
    iterativeControlSets ranked =
      (List.range ranked.length).map (fun i => ranked.take (i + 1)) := by
  unfold iterativeControlSets
  rw [iterativeControlSets_foldl]
  simp

/-- C5: at (0-based) step index i the Specification Curve Runner's control set
is exactly the first i+1 names of the ranked list; it has exactly i+1 names,
and the next step's control set extends it by exactly the next ranked name, so
no step reorders or shrinks the previous step's set. -/
theorem specCurve_controlSet_step (ranked : List String) (i : Nat)
    (h : i < ranked.length) :
    (iterativeControlSets ranked).getD i [] = ranked.take (i + 1) ∧
    ((iterativeControlSets ranked).getD i []).length = i + 1 ∧
    (i + 1 < ranked.length →
      (iterativeControlSets ranked).getD (i + 1) [] =
        (iterativeControlSets ranked).getD i [] ++ [ranked.getD (i + 1) ""]) := by
  have hget : ∀ j, j < ranked.length →
      (iterativeControlSets ranked).getD j [] = ranked.take (j + 1) := by
    intro j hj
    simp [iterativeControlSets_eq, List.getD_eq_getElem?_getD,
      List.getElem?_map, List.getElem?_range hj]
  refine ⟨hget i h, ?_, ?_⟩
  · rw [hget i h]
    simp [List.length_take, Nat.min_eq_left h]
  · intro h2
    rw [hget (i + 1) h2, hget i h, List.take_succ]
    simp [List.getElem?_eq_getElem h2, List.getD_eq_getElem?_getD]

/-- Witness for C5: the ranked list ["x0", "x1", "x2"] at step index 1. -/
theorem specCurve_controlSet_step_witness :
    1 < (["x0", "x1", "x2"] : List String).length ∧
    ((iterativeControlSets ["x0", "x1", "x2"]).getD 1 [] =
        (["x0", "x1", "x2"] : List String).take (1 + 1) ∧
      ((iterativeControlSets ["x0", "x1", "x2"]).getD 1 []).length = 1 + 1 ∧
      (1 + 1 < (["x0", "x1", "x2"] : List String).length →
        (iterativeControlSets ["x0", "x1", "x2"]).getD (1 + 1) [] =
          (iterativeControlSets ["x0", "x1", "x2"]).getD 1 [] ++
            [(["x0", "x1", "x2"] : List String).getD (1 + 1) ""])) :=
  ⟨by decide, specCurve_controlSet_step ["x0", "x1", "x2"] 1 (by decide)⟩

/-- C1 (code bug): the recorded `delta_ml` cross-fitting step, run on a
training partition whose treatment labels are identically 0 (a single observed
class) and a non-empty held-out partition, raises IndexError at
`predict_proba(...)[:, 1]` instead of substituting the empirical treatment
rate and flagging the fold as degenerate. -/
theorem delta_ml_degenerate_fold_raises :
    delta_ml_foldWhat (fun _ _ => 1) [0, 0, 0, 0] [[1], [2]] =
      Except.error "IndexError" := by
  rfl

/-- C6 (code bug): the notebook's specification-curve loop aborts as soon as
one step's `delta_ml` call raises (here at the very first step, as in the
recorded traceback), returning no per-step records at all rather than one
record per control-set size. -/
theorem specCurveLoop_aborts_on_first_step_exception :
    specCurveLoop
      (fun cs => if cs.length = 1 then Except.error "IndexError" else Except.ok 0)
      ["x0", "x1", "x2"] = Except.error "IndexError" := by
  rfl

/-- C8: with the model fits deterministic functions of their seeds and
training rows, two double-ML runs on the same dataset, fold assignment, seeds,
and trimming bounds produce identical results (same ATE, squared SE, and
R²). -/
theorem dml_plm_deterministic (fitY fitT : Nat → List Row → (Row → ℚ))
    (seedY₁ seedT₁ seedY₂ seedT₂ : Nat) (folds₁ folds₂ : List Nat)
    (data₁ data₂ : List Row) (lo₁ hi₁ lo₂ hi₂ : ℚ)
    (hy : seedY₁ = seedY₂) (ht : seedT₁ = seedT₂) (hf : folds₁ = folds₂)
    (hdata : data₁ = data₂) (hlo : lo₁ = lo₂) (hhi : hi₁ = hi₂) :
    dml_plm fitY fitT seedY₁ seedT₁ folds₁ data₁ lo₁ hi₁ =
      dml_plm fitY fitT seedY₂ seedT₂ folds₂ data₂ lo₂ hi₂ := by
  subst hy; subst ht; subst hf; subst hdata; subst hlo; subst hhi
  rfl

/-- Witness for C8: a concrete two-row dataset, fold assignment [0, 1], seeds
(1, 2), and trimming bounds [1/100, 99/100]. -/
theorem dml_plm_deterministic_witness :
    (1 : Nat) = 1 ∧ (2 : Nat) = 2 ∧ ([0, 1] : List Nat) = [0, 1] ∧
      ([⟨1, 1, []⟩, ⟨0, 0, []⟩] : List Row) = [⟨1, 1, []⟩, ⟨0, 0, []⟩] ∧
      ((1 : ℚ) / 100) = ((1 : ℚ) / 100) ∧ ((99 : ℚ) / 100) = ((99 : ℚ) / 100) ∧
      dml_plm (fun s _ _ => (s : ℚ)) (fun s _ _ => (s : ℚ)) 1 2 [0, 1]
          [⟨1, 1, []⟩, ⟨0, 0, []⟩] ((1 : ℚ) / 100) ((99 : ℚ) / 100) =
        dml_plm (fun s _ _ => (s : ℚ)) (fun s _ _ => (s : ℚ)) 1 2 [0, 1]
          [⟨1, 1, []⟩, ⟨0, 0, []⟩] ((1 : ℚ) / 100) ((99 : ℚ) / 100) :=
  ⟨rfl, rfl, rfl, rfl, rfl, rfl,
   dml_plm_deterministic (fun s _ _ => (s : ℚ)) (fun s _ _ => (s : ℚ))
     1 2 1 2 [0, 1] [0, 1] [⟨1, 1, []⟩, ⟨0, 0, []⟩] [⟨1, 1, []⟩, ⟨0, 0, []⟩]
     ((1 : ℚ) / 100) ((99 : ℚ) / 100) ((1 : ℚ) / 100) ((99 : ℚ) / 100)
     rfl rfl rfl rfl rfl rfl⟩

/-- C9: when the outcome is not constant (SS_tot ≠ 0), the R² that
`te_r2_output` reports equals 1 - SS_res/SS_tot between the actual outcome Y
and the out-of-fold predicted Y, over all rows. -/
theorem te_r2_output_r2_eq (te : ℚ × ℚ) (y yhat : List ℚ)
    (h : ((y.map (fun v => (v - y.sum / y.length) ^ 2)).sum : ℚ) ≠ 0) :
    (te_r2_output te y yhat).2.2 =
      1 - ((y.zip yhat).map (fun p => (p.1 - p.2) ^ 2)).sum /
        (y.map (fun v => (v - y.sum / y.length) ^ 2)).sum := by
  have h' : ssTot y ≠ 0 := by simpa [ssTot, mean] using h
  simp only [te_r2_output, r2_score, if_neg h']
  simp [ssRes, ssTot, mean]

/-- Witness for C9: Y = [1, 2] (non-constant), predictions [1, 1]. -/
theorem te_r2_output_r2_eq_witness :
    ((([1, 2] : List ℚ).map
        (fun v => (v - ([1, 2] : List ℚ).sum / (([1, 2] : List ℚ).length)) ^ 2)).sum ≠ 0) ∧
    (te_r2_output (0, 0) [1, 2] [1, 1]).2.2 =
      1 - ((([1, 2] : List ℚ).zip ([1, 1] : List ℚ)).map
            (fun p => (p.1 - p.2) ^ 2)).sum /
          (([1, 2] : List ℚ).map
            (fun v => (v - ([1, 2] : List ℚ).sum / (([1, 2] : List ℚ).length)) ^ 2)).sum :=
  ⟨by norm_num, te_r2_output_r2_eq (0, 0) [1, 2] [1, 1] (by norm_num)⟩

/-- `getD` agrees with indexing below the length. -/
lemma getD_eq_getElem_of_lt (l : List ℚ) (i : Nat) (h : i < l.length) :
    l.getD i 0 = l[i] := by
  simp [List.getD_eq_getElem?_getD, List.getElem?_eq_getElem h]

lemma sortAsc_sorted (l : List ℚ) : (sortAsc l).Sorted (· ≤ ·) :=
  List.sorted_insertionSort _ l

lemma sortAsc_perm (l : List ℚ) : (sortAsc l).Perm l :=
  List.perm_insertionSort _ l

lemma sortAsc_length (l : List ℚ) : (sortAsc l).length = l.length :=
  (sortAsc_perm l).length_eq

/-- With pairwise-distinct entries the ascending sort is strictly sorted. -/
lemma sortAsc_strict (l : List ℚ) (hd : l.Pairwise (· ≠ ·)) :
    (sortAsc l).Sorted (· < ·) := by
  have hd' : (sortAsc l).Pairwise (· ≠ ·) :=
    ((sortAsc_perm l).pairwise_iff (fun h => h.symm)).mpr hd
  exact (List.pairwise_and_iff.mpr ⟨sortAsc_sorted l, hd'⟩).imp
    (fun hab => lt_of_le_of_ne hab.1 hab.2)

/-- Strict indexing form of a strictly sorted list. -/
lemma sorted_lt_getElem (s : List ℚ) (hstrict : s.Sorted (· < ·)) (i j : Nat)
    (hi : i < s.length) (hj : j < s.length) (hij : i < j) : s[i] < s[j] := by
  have := hstrict.rel_get_of_lt (a := ⟨i, hi⟩) (b := ⟨j, hj⟩)
    (by simpa [Fin.mk_lt_mk] using hij)
  simpa using this

/-- Counting values at most a pivot in a strictly sorted list: when the pivot
lies in `[s[k], s[k+1])`, exactly the first `k+1` entries qualify. -/
lemma countP_le_pivot (s : List ℚ) (p : ℚ) (k : Nat)
    (hstrict : s.Sorted (· < ·)) (hk : k < s.length)
    (hlo : s[k] ≤ p) (hhi : ∀ h1 : k + 1 < s.length, p < s[k + 1]) :
    s.countP (fun v => decide (v ≤ p)) = k + 1 := by
  have hks : k + 1 ≤ s.length := hk
  have htake : (s.take (k + 1)).countP (fun v => decide (v ≤ p)) = k + 1 := by
    rw [List.countP_eq_length.mpr, List.length_take, Nat.min_eq_left hks]
    intro a ha
    obtain ⟨i, hi, rfl⟩ := List.mem_iff_getElem.mp ha
    have hil : i < s.length := lt_of_lt_of_le (lt_of_lt_of_le hi
      (List.length_take_le _ _)) hks
    rw [List.getElem_take]
    have hik : i ≤ k := by
      have : i < k + 1 := lt_of_lt_of_le hi (List.length_take_le _ _)
      omega
    rcases Nat.eq_or_lt_of_le hik with rfl | hlt
    · simpa using hlo
    · have h1 : s[i] < s[k] := sorted_lt_getElem s hstrict i k hil hk hlt
      simpa using le_trans h1.le hlo
  have hdrop : (s.drop (k + 1)).countP (fun v => decide (v ≤ p)) = 0 := by
    rw [List.countP_eq_zero]
    intro a ha
    obtain ⟨j, hj, rfl⟩ := List.mem_iff_getElem.mp ha
    have hk1 : k + 1 + j < s.length := by
      have := hj
      simp only [List.length_drop] at this
      omega
    have hk1' : k + 1 < s.length := by omega
    rw [List.getElem_drop]
    simp only [decide_eq_true_eq, not_le]
    rcases Nat.eq_zero_or_pos j with rfl | hjpos
    · simpa using hhi hk1'
    · have hlt2 : s[k + 1] < s[k + 1 + j] :=
        sorted_lt_getElem s hstrict (k + 1) (k + 1 + j) hk1' hk1 (by omega)
      exact lt_trans (hhi hk1') hlt2
  calc s.countP (fun v => decide (v ≤ p))
      = ((s.take (k + 1)) ++ (s.drop (k + 1))).countP (fun v => decide (v ≤ p)) := by
        rw [List.take_append_drop]
    _ = k + 1 := by rw [List.countP_append, htake, hdrop]

/-- Unfolding `npPercentile`. -/
lemma npPercentile_eq (l : List ℚ) (q : ℚ) :
    npPercentile l q =
      (sortAsc l).getD (⌊q / 100 * ((l.length : ℚ) - 1)⌋₊) 0 +
        (q / 100 * ((l.length : ℚ) - 1) - (⌊q / 100 * ((l.length : ℚ) - 1)⌋₊ : ℚ)) *
          ((sortAsc l).getD (⌊q / 100 * ((l.length : ℚ) - 1)⌋₊ + 1) 0 -
            (sortAsc l).getD (⌊q / 100 * ((l.length : ℚ) - 1)⌋₊) 0) := rfl

/-- C10: `dgp` passes 0.50 to `np.percentile`, i.e. the 0.5th percentile, not
the median.  For every non-empty latent-propensity list with pairwise-distinct
entries, the treatment column is binary in {0, 1}, equals the indicator of
exceeding that 0.5th percentile, and exactly `(N-1)/200 + 1` rows — at most
`⌈N/200⌉ + 1`, about 0.5% of N — are untreated, so training partitions
frequently contain a single treatment class. -/
theorem dgpW_half_percentile (latent : List ℚ) (N : Nat)
    (hlen : latent.length = N) (hN : 1 ≤ N)
    (hdist : latent.Pairwise (· ≠ ·)) :
    (∀ w ∈ dgpW latent, w = 0 ∨ w = 1) ∧
    dgpW latent =
      latent.map (fun v => if npPercentile latent ((1 : ℚ) / 2) < v then 1 else 0) ∧
    zeroCount (dgpW latent) = (N - 1) / 200 + 1 ∧
    zeroCount (dgpW latent) ≤ ⌈((N : ℚ) / 200)⌉₊ + 1 := by
  subst hlen
  set s : List ℚ := sortAsc latent with hs
  have hsl : s.length = latent.length := sortAsc_length latent
  have hstrict : s.Sorted (· < ·) := sortAsc_strict latent hdist
  set K : Nat := (latent.length - 1) / 200 with hKdef
  have hq : (1 : ℚ) / 2 / 100 * ((latent.length : ℚ) - 1) =
      ((latent.length - 1 : ℕ) : ℚ) / 200 := by
    rw [Nat.cast_sub hN]
    ring
  have hk : ⌊(1 : ℚ) / 2 / 100 * ((latent.length : ℚ) - 1)⌋₊ = K := by
    rw [hq, show (200 : ℚ) = ((200 : ℕ) : ℚ) by norm_num,
      Nat.floor_div_nat, Nat.floor_natCast]
  have hKn : K < latent.length :=
    lt_of_le_of_lt (Nat.div_le_self _ _) (Nat.sub_lt hN one_pos)
  have hKs : K < s.length := by rw [hsl]; exact hKn
  set g : ℚ := (1 : ℚ) / 2 / 100 * ((latent.length : ℚ) - 1) - (K : ℚ) with hgdef
  have hh0 : (0 : ℚ) ≤ (1 : ℚ) / 2 / 100 * ((latent.length : ℚ) - 1) := by
    rw [hq]
    positivity
  have hg0 : 0 ≤ g := by
    rw [hgdef, ← hk]
    have := Nat.floor_le hh0
    linarith
  have hg1 : g < 1 := by
    rw [hgdef, ← hk]
    have := Nat.lt_floor_add_one ((1 : ℚ) / 2 / 100 * ((latent.length : ℚ) - 1))
    push_cast at this ⊢
    linarith
  have hp : npPercentile latent ((1 : ℚ) / 2) =
      s.getD K 0 + g * (s.getD (K + 1) 0 - s.getD K 0) := by
    rw [npPercentile_eq, hk]
  have hgetK : s.getD K 0 = s[K] := getD_eq_getElem_of_lt s K hKs
  have hcases : g = 0 ∨ (0 < g ∧ K + 1 < s.length) := by
    rcases eq_or_lt_of_le hg0 with h0 | hpos
    · exact Or.inl h0.symm
    · refine Or.inr ⟨hpos, ?_⟩
      have h1 : (K : ℚ) < ((latent.length - 1 : ℕ) : ℚ) / 200 := by
        rw [← hq]
        rw [hgdef] at hpos
        linarith
      have h2 : ((latent.length - 1 : ℕ) : ℚ) / 200 ≤ ((latent.length - 1 : ℕ) : ℚ) := by
        have h3 : (0 : ℚ) ≤ ((latent.length - 1 : ℕ) : ℚ) := Nat.cast_nonneg _
        linarith
      have h3 : K < latent.length - 1 := Nat.cast_lt.mp (lt_of_lt_of_le h1 h2)
      rw [hsl]
      omega
  have hplo : s[K] ≤ npPercentile latent ((1 : ℚ) / 2) := by
    rw [hp, hgetK]
    rcases hcases with h0 | ⟨hpos, hK1⟩
    · rw [h0]
      simp
    · have hgetK1 : s.getD (K + 1) 0 = s[K + 1] :=
        getD_eq_getElem_of_lt s (K + 1) hK1
      rw [hgetK1]
      have hlt : s[K] < s[K + 1] :=
        sorted_lt_getElem s hstrict K (K + 1) hKs hK1 (Nat.lt_succ_self K)
      nlinarith
  have hphi : ∀ hK1 : K + 1 < s.length,
      npPercentile latent ((1 : ℚ) / 2) < s[K + 1] := by
    intro hK1
    have hgetK1 : s.getD (K + 1) 0 = s[K + 1] :=
      getD_eq_getElem_of_lt s (K + 1) hK1
    rw [hp, hgetK, hgetK1]
    have hlt : s[K] < s[K + 1] :=
      sorted_lt_getElem s hstrict K (K + 1) hKs hK1 (Nat.lt_succ_self K)
    have hd : (0 : ℚ) < s[K + 1] - s[K] := sub_pos.mpr hlt
    have hgd : g * (s[K + 1] - s[K]) < s[K + 1] - s[K] := by
      rcases hcases with h0 | ⟨hpos, _⟩
      · rw [h0]
        simpa using hd
      · nlinarith
    linarith
  have hcount : zeroCount (dgpW latent) = K + 1 := by
    have e1 : zeroCount (dgpW latent) =
        latent.countP (fun v => decide (v ≤ npPercentile latent ((1 : ℚ) / 2))) := by
      unfold zeroCount dgpW
      rw [List.countP_map]
      apply List.countP_congr
      intro a _
      by_cases hpv : npPercentile latent ((1 : ℚ) / 2) < a
      · simp [hpv, not_le.mpr hpv]
      · simp [hpv, not_lt.mp hpv]
    have e2 : latent.countP (fun v => decide (v ≤ npPercentile latent ((1 : ℚ) / 2))) =
        s.countP (fun v => decide (v ≤ npPercentile latent ((1 : ℚ) / 2))) :=
      ((sortAsc_perm latent).countP_eq _).symm
    rw [e1, e2]
    exact countP_le_pivot s (npPercentile latent ((1 : ℚ) / 2)) K hstrict hKs hplo hphi
  refine ⟨?_, rfl, hcount, ?_⟩
  · intro w hw
    simp only [dgpW, List.mem_map] at hw
    obtain ⟨v, _, rfl⟩ := hw
    by_cases hpv : npPercentile latent ((1 : ℚ) / 2) < v
    · right
      rw [if_pos hpv]
    · left
      rw [if_neg hpv]
  · rw [hcount]
    have h1 : K ≤ latent.length / 200 := Nat.div_le_div_right (Nat.sub_le _ _)
    have h2 : latent.length / 200 = ⌊((latent.length : ℚ)) / 200⌋₊ := by
      rw [show (200 : ℚ) = ((200 : ℕ) : ℚ) by norm_num,
        Nat.floor_div_nat, Nat.floor_natCast]
    have h3 : ⌊((latent.length : ℚ)) / 200⌋₊ ≤ ⌈((latent.length : ℚ)) / 200⌉₊ :=
      Nat.floor_le_ceil _
    omega

/-- Witness for C10: the latent list [3, 1, 2] with N = 3; its 0.5th
percentile is 101/100, exactly one row (the value 1) is untreated, and
1 ≤ ⌈3/200⌉ + 1. -/
theorem dgpW_half_percentile_witness :
    (([3, 1, 2] : List ℚ).length = 3 ∧ 1 ≤ 3 ∧
      ([3, 1, 2] : List ℚ).Pairwise (· ≠ ·)) ∧
    ((∀ w ∈ dgpW [3, 1, 2], w = 0 ∨ w = 1) ∧
      dgpW [3, 1, 2] =
        ([3, 1, 2] : List ℚ).map
          (fun v => if npPercentile [3, 1, 2] ((1 : ℚ) / 2) < v then 1 else 0) ∧
      zeroCount (dgpW [3, 1, 2]) = (3 - 1) / 200 + 1 ∧
      zeroCount (dgpW [3, 1, 2]) ≤ ⌈((3 : ℕ) : ℚ) / 200⌉₊ + 1) :=
  ⟨⟨rfl, by norm_num, by norm_num [List.pairwise_cons]⟩,
   dgpW_half_percentile [3, 1, 2] 3 rfl (by norm_num)
     (by norm_num [List.pairwise_cons])⟩

end CoefStab
